import Mathlib

/-!
# kitphishr: the fetch / classify / save pipeline of `main.go`

A shallow embedding of `src/main.go`.  The body of each worker goroutine is a
state-passing function that returns the observable effects it performs, in
program order: lines printed, values sent on a channel, and calls made to the
helpers that live outside `main.go` (`ZipFromDir`, `AttemptTarget`,
`SaveResponse`).  Those helpers are parameters of the embedding; they may read
and change an arbitrary external state `σ` (the network, the disk).

Go strings are modelled by `String`; the string tests of the program only
compare against ASCII patterns.  `int` and `int64` values are modelled by `Int`
(the program only compares them or halves them, so no overflow can occur).
-/

namespace Kitphishr

deriving instance DecidableEq for Except

/-! ## Go library primitives used by `main.go` -/

/-- Go `strings.HasSuffix(s, suffix)`. -/
def HasSuffix (s suffix : String) : Bool :=
  suffix.data.isSuffixOf s.data

/-- Search loop behind `strings.Contains`: does `sub` start at some position of the text. -/
def containsAt : List Char → List Char → Bool
  | [], sub => sub.isEmpty
  | c :: cs, sub => sub.isPrefixOf (c :: cs) || containsAt cs sub

/-- Go `strings.Contains(s, substr)`. -/
def Contains (s substr : String) : Bool :=
  containsAt s.data substr.data

/-! ## Constants, globals and data of `main.go` -/

/-- `MAX_DOWNLOAD_SIZE = 104857600 // 100mb` (main.go line 17). -/
def MAX_DOWNLOAD_SIZE : Int := 104857600

/-- `http.StatusOK`. -/
def StatusOK : Int := 200

/-- Modelled from the spec: the `Response` struct is declared outside `main.go`;
the fields are the ones `main.go` reads (`StatusCode`, `URL`, `ContentLength`,
`ContentType`) plus the body bytes named by the FetchResult of the spec. -/
structure Response where
  StatusCode : Int
  URL : String
  ContentLength : Int
  ContentType : String
  Body : List Nat
deriving DecidableEq

/-- The package-level flags read by the workers (`verbose`, `downloadKits`). -/
structure Flags where
  verbose : Bool
  downloadKits : Bool
deriving DecidableEq

/-- The helpers called by the classify worker that are defined outside `main.go`.
Each call may change the external state `σ`; an `error` result stands for a
non-nil `err`. -/
structure Env (σ : Type) where
  ZipFromDir : σ → Response → σ × Except String (List String)
  AttemptTarget : σ → String → σ × Except String Response

/-- Observable effects of the classify worker, tagged by the statement that
produces them. -/
inductive Event where
  /-- the match line printed at lines 135-139 -/
  | directMatch (line : String)
  /-- the match line printed at lines 164-168 -/
  | listingMatch (line : String)
  /-- the diagnostic printed at line 173 -/
  | fetchError (line : String)
  /-- the call `ZipFromDir(resp)` at line 150 -/
  | zipFromDir (resp : Response)
  /-- the call `AttemptTarget(client, hurl)` at line 170 and what it returned -/
  | attemptTarget (url : String) (result : Except String Response)
  /-- the send `tosave <- resp` at line 143 or line 177 -/
  | tosave (resp : Response)
deriving DecidableEq

/-! ## Helper functions of `main.go` (lines 28-44) -/

/-- `hasSuffixes` (main.go lines 28-35). -/
def hasSuffixes (target : String) : List String → Bool
  | [] => false
  | suffix :: suffixes =>
    if HasSuffix target suffix then true else hasSuffixes target suffixes

/-- `containsSubstringsAny` (main.go lines 37-44). -/
def containsSubstringsAny (target : String) : List String → Bool
  | [] => false
  | substring :: substrings =>
    if Contains target substring then true else containsSubstringsAny target substrings

/-! ## The classify worker (main.go lines 120-182) -/

/-- The suffix slice literal of line 130. -/
def archiveSuffixes : List String :=
  [".tar", ".bz2", ".gz", ".7z", ".tar.gz", ".tgz", ".tar.Z", ".tar.bz2",
   ".tbz2", ".tar.lz", ".tlz", ".tar.xz", ".txz", ".tar.zst"]

/-- The content-type slice literal of line 133. -/
def archiveContentTypes : List String :=
  ["zip", "tar", "gz", "bz", "7z"]

/-- The nested conditions of lines 130 and 133. -/
def validArchive (resp : Response) : Bool :=
  hasSuffixes resp.URL archiveSuffixes &&
    (decide (resp.ContentLength > 0) && decide (resp.ContentLength < MAX_DOWNLOAD_SIZE) &&
      containsSubstringsAny resp.ContentType archiveContentTypes)

/-- The text printed at lines 135-139. -/
def directLine (verbose : Bool) (requrl : String) : String :=
  if verbose then "archive file found from URL folder at " ++ requrl ++ "\n"
  else requrl ++ "\n"

/-- The text printed at lines 164-168. -/
def listingLine (verbose : Bool) (hurl : String) : String :=
  if verbose then "Zip found from Open Directory at " ++ hurl ++ "\n"
  else hurl ++ "\n"

/-- The text printed at line 173. -/
def fetchErrorLine (hurl err : String) : String :=
  "There was an error downloading " ++ hurl ++ " : " ++ err ++ "\n"

/-- The value of `hurl` after lines 158-163. -/
def hurl (requrl href : String) : String :=
  if HasSuffix requrl "/" then requrl ++ href else requrl ++ "/" ++ href

/-- One iteration of `for _, href := range hrefs` (lines 155-181). -/
def hrefStep {σ : Type} (env : Env σ) (fl : Flags) (requrl : String) (w : σ)
    (href : String) : σ × List Event :=
  if href ≠ "" then
    let found := Event.listingMatch (listingLine fl.verbose (hurl requrl href))
    if fl.downloadKits then
      match env.AttemptTarget w (hurl requrl href) with
      | (w1, Except.error err) =>
        (w1, [found, Event.attemptTarget (hurl requrl href) (Except.error err)] ++
          (if fl.verbose then [Event.fetchError (fetchErrorLine (hurl requrl href) err)] else []))
      | (w1, Except.ok resp) =>
        (w1, [found, Event.attemptTarget (hurl requrl href) (Except.ok resp), Event.tosave resp])
    else (w, [found])
  else (w, [])

/-- The loop `for _, href := range hrefs` (lines 155-181). -/
def hrefLoop {σ : Type} (env : Env σ) (fl : Flags) (requrl : String) :
    σ → List String → σ × List Event
  | w, [] => (w, [])
  | w, href :: hrefs =>
    let r1 := hrefStep env fl requrl w href
    let r2 := hrefLoop env fl requrl r1.1 hrefs
    (r2.1, r1.2 ++ r2.2)

/-- One iteration of `for resp := range responses` (lines 120-182). -/
def classifyResponse {σ : Type} (env : Env σ) (fl : Flags) (w : σ) (resp : Response) :
    σ × List Event :=
  if resp.StatusCode ≠ StatusOK then (w, [])
  else
    let found :=
      if validArchive resp then [Event.directMatch (directLine fl.verbose resp.URL)] else []
    if validArchive resp && fl.downloadKits then (w, found ++ [Event.tosave resp])
    else
      match env.ZipFromDir w resp with
      | (w1, Except.error _) => (w1, found ++ [Event.zipFromDir resp])
      | (w1, Except.ok hrefs) =>
        let r := hrefLoop env fl resp.URL w1 hrefs
        (r.1, found ++ Event.zipFromDir resp :: r.2)

/-- The classify worker goroutine: `for resp := range responses` over the
responses it receives, in order. -/
def responseWorker {σ : Type} (env : Env σ) (fl : Flags) : σ → List Response → σ × List Event
  | w, [] => (w, [])
  | w, resp :: rest =>
    let r1 := classifyResponse env fl w resp
    let r2 := responseWorker env fl r1.1 rest
    (r2.1, r1.2 ++ r2.2)

/-! ### Projections of a trace -/

/-- Lines printed as direct-archive matches. -/
def directReports : List Event → List String
  | [] => []
  | Event.directMatch line :: es => line :: directReports es
  | _ :: es => directReports es

/-- Lines printed as open-directory matches. -/
def listingReports : List Event → List String
  | [] => []
  | Event.listingMatch line :: es => line :: listingReports es
  | _ :: es => listingReports es

/-- Responses handed to `ZipFromDir`. -/
def parsed : List Event → List Response
  | [] => []
  | Event.zipFromDir resp :: es => resp :: parsed es
  | _ :: es => parsed es

/-- URLs passed to `AttemptTarget` by the classify worker. -/
def fetched : List Event → List String
  | [] => []
  | Event.attemptTarget url _ :: es => url :: fetched es
  | _ :: es => fetched es

/-- Responses returned without error by the `AttemptTarget` calls of the classify worker. -/
def fetchedOk : List Event → List Response
  | [] => []
  | Event.attemptTarget _ (Except.ok resp) :: es => resp :: fetchedOk es
  | _ :: es => fetchedOk es

/-- Responses sent on `tosave`. -/
def saved : List Event → List Response
  | [] => []
  | Event.tosave resp :: es => resp :: saved es
  | _ :: es => saved es

/-! ### A concrete environment used to exercise the definitions -/

/-- A directory listing at `http://host/open/` with three anchors, one of them
empty; any other body fails to parse.  The state counts the calls made. -/
def sampleZipFromDir (w : Nat) (resp : Response) : Nat × Except String (List String) :=
  if resp.URL = "http://host/open/" then (w + 1, Except.ok ["kit.zip", "", "b.tar.gz"])
  else if resp.URL = "http://x/kit.tar.gz" then (w + 1, Except.ok ["a.zip"])
  else (w + 1, Except.error "not a listing")

/-- Fetching `http://host/open/kit.zip` fails; every other URL answers 200. -/
def sampleAttemptTarget (w : Nat) (url : String) : Nat × Except String Response :=
  if url = "http://host/open/kit.zip" then (w + 1, Except.error "timeout")
  else (w + 1, Except.ok ⟨200, url, 1024, "application/zip", []⟩)

/-- The sample environment. -/
def sampleEnv : Env Nat :=
  ⟨sampleZipFromDir, sampleAttemptTarget⟩

/-- A 200 response for an open directory. -/
def sampleListing : Response :=
  ⟨200, "http://host/open/", 512, "text/html", []⟩

/-- A 200 response that passes the direct-archive check. -/
def sampleArchive : Response :=
  ⟨200, "http://x/kit.tar.gz", 1024, "application/gzip", []⟩

/-! ## The save worker (main.go lines 194-213) -/

/-- The calendar fields of a `time.Time` printed by the layout `20060102150405`. -/
structure Time where
  Year : Nat
  Month : Nat
  Day : Nat
  Hour : Nat
  Minute : Nat
  Second : Nat
deriving DecidableEq

/-- Go `appendInt(b, x, width)` of package `time` for a non-negative `x`: the
decimal digits of `x`, zero-padded on the left to at least `width` characters. -/
def appendInt (x width : Nat) : List Char :=
  if width = 2 ∧ x < 100 then
    [Nat.digitChar (x / 10), Nat.digitChar (x % 10)]
  else if width = 4 ∧ x < 10000 then
    [Nat.digitChar (x / 1000), Nat.digitChar (x / 100 % 10),
     Nat.digitChar (x / 10 % 10), Nat.digitChar (x % 10)]
  else
    List.replicate (width - (Nat.toDigits 10 x).length) '0' ++ Nat.toDigits 10 x

/-- Go `t.Format("20060102150405")`: year, month, day, hour, minute, second. -/
def Time.Format (t : Time) : String :=
  String.mk (appendInt t.Year 4 ++ appendInt t.Month 2 ++ appendInt t.Day 2 ++
    appendInt t.Hour 2 ++ appendInt t.Minute 2 ++ appendInt t.Second 2)

/-- The helpers used by the save worker that are defined outside `main.go`:
`resp.SaveResponse()`, returning the pair `(filename, err)`, and the clock
`time.Now()`. -/
structure SaveEnv (σ : Type) where
  SaveResponse : σ → Response → σ × String × Option String
  Now : σ → Time

/-- Observable effects of the save worker. -/
inductive SaveEvent where
  /-- the diagnostic printed at line 200 -/
  | saveError (line : String)
  /-- the diagnostic printed at line 205 -/
  | saveOk (line : String)
  /-- the line written to the index file at line 210 -/
  | indexWrite (line : String)
deriving DecidableEq

/-- The value of `line` at line 209, `fmt.Sprintf("%s,%s,%s\n", ...)`. -/
def indexLine (stamp url filename : String) : String :=
  stamp ++ "," ++ url ++ "," ++ filename ++ "\n"

/-- One iteration of `for resp := range tosave` (lines 196-212). -/
def saveStep {σ : Type} (senv : SaveEnv σ) (fl : Flags) (w : σ) (resp : Response) :
    σ × List SaveEvent :=
  match senv.SaveResponse w resp with
  | (w1, _, some err) =>
    (w1, if fl.verbose then
        [SaveEvent.saveError ("There was an error saving " ++ resp.URL ++ " : " ++ err ++ "\n")]
      else [])
  | (w1, filename, none) =>
    if filename ≠ "" then
      (w1, (if fl.verbose then [SaveEvent.saveOk ("Successfully saved " ++ filename ++ "\n")]
          else []) ++
        [SaveEvent.indexWrite (indexLine (senv.Now w1).Format resp.URL filename)])
    else (w1, [])

/-- Lines appended to the index file. -/
def indexWrites : List SaveEvent → List String
  | [] => []
  | SaveEvent.indexWrite line :: es => line :: indexWrites es
  | _ :: es => indexWrites es

/-- Failure diagnostics printed by the save worker. -/
def saveErrors : List SaveEvent → List String
  | [] => []
  | SaveEvent.saveError line :: es => line :: saveErrors es
  | _ :: es => saveErrors es

/-- A sample saver: stores `.zip` content types under the name `kit.zip`, fails
on an empty body length, and declines anything else with an empty filename. -/
def sampleSaveResponse (w : Nat) (resp : Response) : Nat × String × Option String :=
  if resp.ContentLength = 0 then (w + 1, "", some "empty body")
  else if resp.ContentType = "application/zip" then (w + 1, "kit.zip", none)
  else (w + 1, "", none)

/-- The sample save environment; the clock reads 2026-11-01 09:05:03. -/
def sampleSaveEnv : SaveEnv Nat :=
  ⟨sampleSaveResponse, fun _ => ⟨2026, 11, 1, 9, 5, 3⟩⟩

/-! ## The worker pools and the shutdown sequence of `main` (lines 81-238) -/

/-- The counting loop `for i := 0; i < bound; i++ { ...; go func() ... }`:
the number of goroutines started, from loop index `i` with `started` already
running. -/
def spawnLoop (i bound : Int) (started : Nat) : Nat :=
  if i < bound then spawnLoop (i + 1) bound (started + 1) else started
termination_by (bound - i).toNat
decreasing_by omega

/-- Fetch workers started by the loop at line 83. -/
def fetchWorkers (concurrency : Int) : Nat :=
  spawnLoop 0 concurrency 0

/-- Classify workers started by the loop at line 112; the Go operator `/` on `int`
truncates toward zero. -/
def classifyWorkers (concurrency : Int) : Nat :=
  spawnLoop 0 (concurrency.tdiv 2) 0

/-- Save workers started by the loop at line 190. -/
def saveWorkers : Nat :=
  spawnLoop 0 10 0

/-- Where a fetch worker stands (lines 87-103). -/
inductive FetchPc where
  /-- at `for url := range targets`, waiting for a value or for the close -/
  | recv
  /-- at `responses <- res`, waiting for a receiver -/
  | send (res : Response)
  /-- returned; `wg.Done()` has run -/
  | done
deriving DecidableEq

/-- Where a classify worker stands (lines 116-183). -/
inductive ClassifyPc where
  /-- at `for resp := range responses` -/
  | recv
  /-- at a `tosave <- resp`, with the responses this iteration still has to send -/
  | send (pending : List Response)
  /-- returned; `rg.Done()` has run -/
  | done
deriving DecidableEq

/-- Where a save worker stands (lines 194-213). -/
inductive SavePc where
  /-- at `for resp := range tosave` -/
  | recv
  /-- returned; `sg.Done()` has run -/
  | done
deriving DecidableEq

/-- Where `main` stands (lines 226-238). -/
inductive MainPc where
  /-- in `for url := range urls`, at `targets <- url` for the head of the list;
  at `close(targets)` when the list is empty -/
  | feed (urls : List String)
  /-- at `wg.Wait()` -/
  | waitFetch
  /-- at `rg.Wait()` -/
  | waitClassify
  /-- at `sg.Wait()` -/
  | waitSave
  /-- `main` has returned -/
  | returned
deriving DecidableEq

/-- The state of the running program: the external state, the position of
every goroutine, and which channels are closed. -/
structure Pipeline (σ : Type) where
  world : σ
  main : MainPc
  targetsClosed : Bool
  responsesClosed : Bool
  tosaveClosed : Bool
  fetchers : List FetchPc
  classifiers : List ClassifyPc
  savers : List SavePc
deriving DecidableEq

/-- The atomic steps of the program.  The channels are unbuffered, so a send
and the matching receive happen together. -/
inductive Action where
  /-- `targets <- url` in `main` meets the receive of fetch worker `i` -/
  | sendTarget (i : Nat)
  /-- `close(targets)` -/
  | closeTargets
  /-- fetch worker `i` sees `targets` closed and returns -/
  | fetchExit (i : Nat)
  /-- `responses <- res` in fetch worker `i` meets the receive of classify worker `j` -/
  | sendResponse (i j : Nat)
  /-- `wg.Wait()` returns and `main` runs `close(responses)` -/
  | closeResponses
  /-- classify worker `j` sees `responses` closed and returns -/
  | classifyExit (j : Nat)
  /-- `tosave <- resp` in classify worker `j` meets the receive of save worker `k` -/
  | sendSave (j k : Nat)
  /-- `rg.Wait()` returns and `main` runs `close(tosave)` -/
  | closeTosave
  /-- save worker `k` sees `tosave` closed and returns -/
  | saveExit (k : Nat)
  /-- `sg.Wait()` returns and `main` returns -/
  | mainReturn
deriving DecidableEq

/-- The state right after the three pools are started and the target list is known. -/
def Pipeline.init {σ : Type} (concurrency : Int) (urls : List String) (w : σ) : Pipeline σ :=
  { world := w
    main := MainPc.feed urls
    targetsClosed := false
    responsesClosed := false
    tosaveClosed := false
    fetchers := List.replicate (fetchWorkers concurrency) FetchPc.recv
    classifiers := List.replicate (classifyWorkers concurrency) ClassifyPc.recv
    savers := List.replicate saveWorkers SavePc.recv }

/-- The position of a classify worker that still has `pending` to send. -/
def ClassifyPc.after (pending : List Response) : ClassifyPc :=
  if pending = [] then ClassifyPc.recv else ClassifyPc.send pending

/-- One atomic step; `none` when the action is not enabled in the state. -/
def Pipeline.step {σ : Type} (env : Env σ) (senv : SaveEnv σ) (fl : Flags) (s : Pipeline σ) :
    Action → Option (Pipeline σ)
  | Action.sendTarget i =>
    match s.main, s.fetchers[i]? with
    | MainPc.feed (url :: urls), some FetchPc.recv =>
      match env.AttemptTarget s.world url with
      | (w1, Except.error _) => some { s with world := w1, main := MainPc.feed urls }
      | (w1, Except.ok res) =>
        some { s with world := w1, main := MainPc.feed urls,
                      fetchers := s.fetchers.set i (FetchPc.send res) }
    | _, _ => none
  | Action.closeTargets =>
    match s.main with
    | MainPc.feed [] => some { s with main := MainPc.waitFetch, targetsClosed := true }
    | _ => none
  | Action.fetchExit i =>
    if s.targetsClosed = true ∧ s.fetchers[i]? = some FetchPc.recv then
      some { s with fetchers := s.fetchers.set i FetchPc.done }
    else none
  | Action.sendResponse i j =>
    match s.fetchers[i]?, s.classifiers[j]? with
    | some (FetchPc.send res), some ClassifyPc.recv =>
      let r := classifyResponse env fl s.world res
      some { s with world := r.1, fetchers := s.fetchers.set i FetchPc.recv,
                    classifiers := s.classifiers.set j (ClassifyPc.after (saved r.2)) }
    | _, _ => none
  | Action.closeResponses =>
    if s.main = MainPc.waitFetch ∧ s.fetchers.all (fun p => decide (p = FetchPc.done)) = true then
      some { s with main := MainPc.waitClassify, responsesClosed := true }
    else none
  | Action.classifyExit j =>
    if s.responsesClosed = true ∧ s.classifiers[j]? = some ClassifyPc.recv then
      some { s with classifiers := s.classifiers.set j ClassifyPc.done }
    else none
  | Action.sendSave j k =>
    match s.classifiers[j]?, s.savers[k]? with
    | some (ClassifyPc.send (resp :: pending)), some SavePc.recv =>
      some { s with world := (saveStep senv fl s.world resp).1,
                    classifiers := s.classifiers.set j (ClassifyPc.after pending) }
    | _, _ => none
  | Action.closeTosave =>
    if s.main = MainPc.waitClassify ∧
        s.classifiers.all (fun p => decide (p = ClassifyPc.done)) = true then
      some { s with main := MainPc.waitSave, tosaveClosed := true }
    else none
  | Action.saveExit k =>
    if s.tosaveClosed = true ∧ s.savers[k]? = some SavePc.recv then
      some { s with savers := s.savers.set k SavePc.done }
    else none
  | Action.mainReturn =>
    if s.main = MainPc.waitSave ∧ s.savers.all (fun p => decide (p = SavePc.done)) = true then
      some { s with main := MainPc.returned }
    else none

/-- Run a schedule, a list of actions, from a state; `none` as soon as an
action is not enabled. -/
def Pipeline.run {σ : Type} (env : Env σ) (senv : SaveEnv σ) (fl : Flags) :
    Pipeline σ → List Action → Option (Pipeline σ)
  | s, [] => some s
  | s, a :: rest =>
    match s.step env senv fl a with
    | some s1 => Pipeline.run env senv fl s1 rest
    | none => none

/-- The state in which a single fetch worker holds a response nobody receives. -/
def stuckState : Pipeline Nat :=
  { world := 1
    main := MainPc.waitFetch
    targetsClosed := true
    responsesClosed := false
    tosaveClosed := false
    fetchers := [FetchPc.send ⟨200, "http://host/open/", 1024, "application/zip", []⟩]
    classifiers := []
    savers := List.replicate 10 SavePc.recv }

/-- The single target of the shutdown scenario. -/
def stuckTarget : String := "http://host/open/"

/-- The states the program with one fetch worker and no classify worker can be
in while it handles `stuckTarget`: before the target is handed over, after the
fetch worker obtained its response, and after `close(targets)`. -/
def blockedOnResponses (s : Pipeline Nat) : Prop :=
  s.classifiers = [] ∧ s.responsesClosed = false ∧ s.tosaveClosed = false ∧
    ((s.main = MainPc.feed [stuckTarget] ∧ s.fetchers = [FetchPc.recv] ∧
        s.targetsClosed = false) ∨
      ((s.main = MainPc.feed [] ∨ s.main = MainPc.waitFetch) ∧
        s.fetchers = [FetchPc.send ⟨200, stuckTarget, 1024, "application/zip", []⟩]))

/-- A schedule that drains the program started with concurrency 2 on `stuckTarget`. -/
def drainSchedule : List Action :=
  [Action.sendTarget 0, Action.closeTargets, Action.sendResponse 0 0, Action.fetchExit 0,
   Action.fetchExit 1, Action.closeResponses, Action.sendSave 0 3, Action.classifyExit 0,
   Action.closeTosave, Action.saveExit 0, Action.saveExit 1, Action.saveExit 2, Action.saveExit 3,
   Action.saveExit 4, Action.saveExit 5, Action.saveExit 6, Action.saveExit 7, Action.saveExit 8,
   Action.saveExit 9, Action.mainReturn]

/-- The state after a complete shutdown with concurrency 2: every channel
closed, every worker returned, `main` returned. -/
def drainedState : Pipeline Nat :=
  { world := 5
    main := MainPc.returned
    targetsClosed := true
    responsesClosed := true
    tosaveClosed := true
    fetchers := [FetchPc.done, FetchPc.done]
    classifiers := [ClassifyPc.done]
    savers := List.replicate 10 SavePc.done }

/-! ## The direct-archive check as the specification words it -/

/-- The text after the first `://` of a URL, if there is one. -/
def afterScheme : List Char → Option (List Char)
  | ':' :: '/' :: '/' :: rest => some rest
  | _ :: cs => afterScheme cs
  | [] => none

/-- The path of a URL in the sense of the specification ("the URL path"): what
follows the scheme and the host, up to the query string or the fragment.
`main.go` never computes it. -/
def specUrlPath (url : String) : String :=
  String.mk ((((afterScheme url.data).getD url.data).takeWhile
    (fun c => decide (c ≠ '?') && decide (c ≠ '#'))).dropWhile (fun c => decide (c ≠ '/')))

/-- The direct-archive check as the specification states it: the suffix test
is made on the URL path, the other two conditions are those of line 133. -/
def specDirectArchive (resp : Response) : Bool :=
  hasSuffixes (specUrlPath resp.URL) archiveSuffixes &&
    (decide (resp.ContentLength > 0) && decide (resp.ContentLength < MAX_DOWNLOAD_SIZE) &&
      containsSubstringsAny resp.ContentType archiveContentTypes)

/-- An archive requested with a query string: the path ends in `.tar.gz`, the
URL string does not. -/
def sampleQueryArchive : Response :=
  ⟨200, "http://x/kit.tar.gz?x=1", 1024, "application/gzip", []⟩

/-- A URL whose query string, not its path, ends in `.gz`. -/
def sampleQuerySuffix : Response :=
  ⟨200, "http://x/?f=.gz", 1024, "application/gzip", []⟩

/-- A URL without a path whose host name ends in `.tar`. -/
def sampleHostSuffix : Response :=
  ⟨200, "http://files.example.tar", 1024, "application/x-tar", []⟩

/-! ## Facts about the string primitives -/

theorem hasSuffix_iff (s suffix : String) :
    HasSuffix s suffix = true ↔ ∃ p : String, s = p ++ suffix := by
  unfold HasSuffix
  rw [List.isSuffixOf_iff_suffix]
  constructor
  · rintro ⟨t, ht⟩
    exact ⟨⟨t⟩, String.ext (by simp [String.data_append, ht])⟩
  · rintro ⟨p, rfl⟩
    exact ⟨p.data, by simp [String.data_append]⟩

theorem containsAt_iff (s sub : List Char) : containsAt s sub = true ↔ sub <:+: s := by
  induction s with
  | nil => cases sub <;> simp [containsAt]
  | cons c cs ih =>
    simp only [containsAt, Bool.or_eq_true, List.isPrefixOf_iff_prefix, ih, List.infix_cons_iff]

theorem contains_iff (s sub : String) :
    Contains s sub = true ↔ ∃ a b : String, s = a ++ sub ++ b := by
  unfold Contains
  rw [containsAt_iff]
  constructor
  · rintro ⟨a, b, hab⟩
    exact ⟨⟨a⟩, ⟨b⟩, String.ext (by simp [String.data_append, ← hab])⟩
  · rintro ⟨a, b, rfl⟩
    exact ⟨a.data, b.data, by simp [String.data_append]⟩

theorem hasSuffixes_iff (target : String) (suffixes : List String) :
    hasSuffixes target suffixes = true ↔ ∃ suffix ∈ suffixes, HasSuffix target suffix = true := by
  induction suffixes with
  | nil => simp [hasSuffixes]
  | cons x xs ih =>
    by_cases hx : HasSuffix target x = true <;> simp [hasSuffixes, hx, ih]

theorem containsSubstringsAny_iff (target : String) (subs : List String) :
    containsSubstringsAny target subs = true ↔ ∃ sub ∈ subs, Contains target sub = true := by
  induction subs with
  | nil => simp [containsSubstringsAny]
  | cons x xs ih =>
    by_cases hx : Contains target x = true <;> simp [containsSubstringsAny, hx, ih]

/-! ## Facts about trace projections -/

@[simp] theorem directReports_append (xs ys : List Event) :
    directReports (xs ++ ys) = directReports xs ++ directReports ys := by
  induction xs with
  | nil => rfl
  | cons e es ih => cases e <;> simp [directReports, ih]

@[simp] theorem listingReports_append (xs ys : List Event) :
    listingReports (xs ++ ys) = listingReports xs ++ listingReports ys := by
  induction xs with
  | nil => rfl
  | cons e es ih => cases e <;> simp [listingReports, ih]

@[simp] theorem parsed_append (xs ys : List Event) :
    parsed (xs ++ ys) = parsed xs ++ parsed ys := by
  induction xs with
  | nil => rfl
  | cons e es ih => cases e <;> simp [parsed, ih]

@[simp] theorem fetched_append (xs ys : List Event) :
    fetched (xs ++ ys) = fetched xs ++ fetched ys := by
  induction xs with
  | nil => rfl
  | cons e es ih => cases e <;> simp [fetched, ih]

@[simp] theorem fetchedOk_append (xs ys : List Event) :
    fetchedOk (xs ++ ys) = fetchedOk xs ++ fetchedOk ys := by
  induction xs with
  | nil => rfl
  | cons e es ih =>
    cases e with
    | attemptTarget u r => cases r <;> simp [fetchedOk, ih]
    | _ => simp [fetchedOk, ih]

@[simp] theorem saved_append (xs ys : List Event) :
    saved (xs ++ ys) = saved xs ++ saved ys := by
  induction xs with
  | nil => rfl
  | cons e es ih => cases e <;> simp [saved, ih]

theorem mem_saved (r : Response) (tr : List Event) : r ∈ saved tr ↔ Event.tosave r ∈ tr := by
  induction tr with
  | nil => simp [saved]
  | cons e es ih => cases e <;> simp [saved, ih]

theorem fetchedOk_length_le (tr : List Event) :
    (fetchedOk tr).length ≤ (fetched tr).length := by
  induction tr with
  | nil => simp [fetchedOk, fetched]
  | cons e es ih =>
    cases e with
    | attemptTarget u r => cases r <;> simp [fetchedOk, fetched] <;> omega
    | _ => simpa [fetchedOk, fetched] using ih

/-! ## Facts about the href loop -/

theorem directReports_hrefStep {σ : Type} (env : Env σ) (fl : Flags) (requrl : String) (w : σ)
    (href : String) : directReports (hrefStep env fl requrl w href).2 = [] := by
  unfold hrefStep
  split
  · split
    · split <;> [split; skip] <;> simp [directReports]
    · simp [directReports]
  · rfl

theorem parsed_hrefStep {σ : Type} (env : Env σ) (fl : Flags) (requrl : String) (w : σ)
    (href : String) : parsed (hrefStep env fl requrl w href).2 = [] := by
  unfold hrefStep
  split
  · split
    · split <;> [split; skip] <;> simp [parsed]
    · simp [parsed]
  · rfl

theorem listingReports_hrefStep {σ : Type} (env : Env σ) (fl : Flags) (requrl : String) (w : σ)
    (href : String) :
    listingReports (hrefStep env fl requrl w href).2 =
      if href ≠ "" then [listingLine fl.verbose (hurl requrl href)] else [] := by
  unfold hrefStep
  split
  · split
    · split <;> [split; skip] <;> simp [listingReports]
    · simp [listingReports]
  · rfl

theorem fetched_hrefStep {σ : Type} (env : Env σ) (fl : Flags) (requrl : String) (w : σ)
    (href : String) :
    fetched (hrefStep env fl requrl w href).2 =
      if href ≠ "" ∧ fl.downloadKits = true then [hurl requrl href] else [] := by
  unfold hrefStep
  by_cases hh : href = ""
  · simp [hh, fetched]
  · by_cases hd : fl.downloadKits = true
    · simp only [hh, hd, ne_eq, not_false_eq_true, if_true, and_self]
      split <;> [split; skip] <;> simp [fetched]
    · simp [hh, hd, fetched]

theorem saved_hrefStep {σ : Type} (env : Env σ) (fl : Flags) (requrl : String) (w : σ)
    (href : String) :
    saved (hrefStep env fl requrl w href).2 = fetchedOk (hrefStep env fl requrl w href).2 := by
  unfold hrefStep
  split
  · split
    · split <;> [split; skip] <;> simp [saved, fetchedOk]
    · simp [saved, fetchedOk]
  · rfl

theorem saved_hrefStep_off {σ : Type} (env : Env σ) (fl : Flags) (requrl : String) (w : σ)
    (href : String) (hd : fl.downloadKits = false) :
    saved (hrefStep env fl requrl w href).2 = [] := by
  unfold hrefStep
  split <;> simp [hd, saved]

theorem hrefStep_world_off {σ : Type} (env : Env σ) (fl : Flags) (requrl : String) (w : σ)
    (href : String) (hd : fl.downloadKits = false) :
    (hrefStep env fl requrl w href).1 = w := by
  unfold hrefStep
  split <;> simp [hd]

theorem directReports_hrefLoop {σ : Type} (env : Env σ) (fl : Flags) (requrl : String) (w : σ)
    (hrefs : List String) : directReports (hrefLoop env fl requrl w hrefs).2 = [] := by
  induction hrefs generalizing w with
  | nil => rfl
  | cons h hs ih => simp [hrefLoop, directReports_hrefStep, ih]

theorem parsed_hrefLoop {σ : Type} (env : Env σ) (fl : Flags) (requrl : String) (w : σ)
    (hrefs : List String) : parsed (hrefLoop env fl requrl w hrefs).2 = [] := by
  induction hrefs generalizing w with
  | nil => rfl
  | cons h hs ih => simp [hrefLoop, parsed_hrefStep, ih]

theorem listingReports_hrefLoop {σ : Type} (env : Env σ) (fl : Flags) (requrl : String) (w : σ)
    (hrefs : List String) :
    listingReports (hrefLoop env fl requrl w hrefs).2 =
      (hrefs.filter (fun h => decide (h ≠ ""))).map
        (fun h => listingLine fl.verbose (hurl requrl h)) := by
  induction hrefs generalizing w with
  | nil => rfl
  | cons h hs ih =>
    by_cases hh : h = "" <;> simp [hrefLoop, listingReports_hrefStep, ih, hh]

theorem fetched_hrefLoop {σ : Type} (env : Env σ) (fl : Flags) (requrl : String) (w : σ)
    (hrefs : List String) :
    fetched (hrefLoop env fl requrl w hrefs).2 =
      if fl.downloadKits = true then
        (hrefs.filter (fun h => decide (h ≠ ""))).map (hurl requrl)
      else [] := by
  induction hrefs generalizing w with
  | nil => simp [hrefLoop, fetched]
  | cons h hs ih =>
    by_cases hh : h = "" <;> by_cases hd : fl.downloadKits = true <;>
      simp [hrefLoop, fetched_hrefStep, ih, hh, hd]

theorem saved_hrefLoop {σ : Type} (env : Env σ) (fl : Flags) (requrl : String) (w : σ)
    (hrefs : List String) :
    saved (hrefLoop env fl requrl w hrefs).2 = fetchedOk (hrefLoop env fl requrl w hrefs).2 := by
  induction hrefs generalizing w with
  | nil => rfl
  | cons h hs ih => simp [hrefLoop, saved_hrefStep, ih]

theorem saved_hrefLoop_off {σ : Type} (env : Env σ) (fl : Flags) (requrl : String) (w : σ)
    (hrefs : List String) (hd : fl.downloadKits = false) :
    saved (hrefLoop env fl requrl w hrefs).2 = [] := by
  induction hrefs generalizing w with
  | nil => rfl
  | cons h hs ih => simp [hrefLoop, saved_hrefStep_off, ih, hd]

/-! ## Facts about one classify iteration -/

theorem classifyResponse_ok {σ : Type} (env : Env σ) (fl : Flags) (w : σ) (resp : Response)
    (h200 : resp.StatusCode = 200) :
    classifyResponse env fl w resp =
      if validArchive resp && fl.downloadKits then
        (w, [Event.directMatch (directLine fl.verbose resp.URL), Event.tosave resp])
      else
        ((hrefLoop env fl resp.URL (env.ZipFromDir w resp).1
            (match (env.ZipFromDir w resp).2 with
              | Except.error _ => []
              | Except.ok hrefs => hrefs)).1,
          (if validArchive resp then [Event.directMatch (directLine fl.verbose resp.URL)] else [])
            ++ Event.zipFromDir resp ::
              (hrefLoop env fl resp.URL (env.ZipFromDir w resp).1
                (match (env.ZipFromDir w resp).2 with
                  | Except.error _ => []
                  | Except.ok hrefs => hrefs)).2) := by
  unfold classifyResponse
  simp only [h200, StatusOK, ne_eq, not_true_eq_false, if_false]
  by_cases hv : validArchive resp = true <;> by_cases hd : fl.downloadKits = true
  · simp [hv, hd]
  · simp only [hv, hd, Bool.and_false, Bool.false_eq_true, if_false, if_true]
    rcases hz : env.ZipFromDir w resp with ⟨w1, _ | hrefs⟩ <;> simp [hrefLoop]
  · simp only [hv, Bool.false_and, Bool.false_eq_true, if_false]
    rcases hz : env.ZipFromDir w resp with ⟨w1, _ | hrefs⟩ <;> simp [hrefLoop]
  · simp only [hv, Bool.false_and, Bool.false_eq_true, if_false]
    rcases hz : env.ZipFromDir w resp with ⟨w1, _ | hrefs⟩ <;> simp [hrefLoop]

theorem directReports_classifyResponse {σ : Type} (env : Env σ) (fl : Flags) (w : σ)
    (resp : Response) (h200 : resp.StatusCode = 200) :
    directReports (classifyResponse env fl w resp).2 =
      if validArchive resp = true then [directLine fl.verbose resp.URL] else [] := by
  rw [classifyResponse_ok env fl w resp h200]
  by_cases hv : validArchive resp = true <;> by_cases hd : fl.downloadKits = true <;>
    simp [hv, hd, directReports, directReports_hrefLoop]

theorem validArchive_iff (resp : Response) :
    validArchive resp = true ↔
      (∃ suffix ∈ archiveSuffixes, ∃ p : String, resp.URL = p ++ suffix) ∧
      0 < resp.ContentLength ∧ resp.ContentLength < 104857600 ∧
      (∃ sub ∈ archiveContentTypes, ∃ a b : String, resp.ContentType = a ++ sub ++ b) := by
  simp only [validArchive, Bool.and_eq_true, decide_eq_true_eq, hasSuffixes_iff,
    containsSubstringsAny_iff, hasSuffix_iff, contains_iff, MAX_DOWNLOAD_SIZE, gt_iff_lt]
  tauto

theorem not_hasSuffix_of_last (s suffix : String) (c d : Char)
    (hs : s.data.getLast? = some c) (hsuf : suffix.data.getLast? = some d) (hcd : c ≠ d) :
    HasSuffix s suffix = false := by
  rw [Bool.eq_false_iff]
  intro h
  obtain ⟨p, rfl⟩ := (hasSuffix_iff s suffix).1 h
  rw [String.data_append] at hs
  have hne : suffix.data ≠ [] := by
    intro h0
    rw [h0] at hsuf
    simp at hsuf
  rw [List.getLast?_append_of_ne_nil _ hne, hsuf] at hs
  exact hcd (Option.some.inj hs).symm

theorem zip_url_not_archive (p : String) : hasSuffixes (p ++ ".zip") archiveSuffixes = false := by
  have hl : (p ++ ".zip").data.getLast? = some 'p' := by
    rw [String.data_append, List.getLast?_append_of_ne_nil _ (by decide)]
    decide
  rw [Bool.eq_false_iff]
  intro h
  obtain ⟨suffix, hmem, hsuf⟩ := (hasSuffixes_iff _ _).1 h
  have : ∃ d, suffix.data.getLast? = some d ∧ 'p' ≠ d := by
    simp only [archiveSuffixes, List.mem_cons, List.mem_singleton, List.not_mem_nil,
      or_false] at hmem
    rcases hmem with h | h | h | h | h | h | h | h | h | h | h | h | h | h <;>
      subst h <;> decide
  obtain ⟨d, hd, hne⟩ := this
  rw [not_hasSuffix_of_last _ _ 'p' d hl hd hne] at hsuf
  exact Bool.false_ne_true hsuf

theorem mem_archiveSuffixes (suffix : String) :
    suffix ∈ archiveSuffixes ↔
      suffix ∈ [".tar", ".gz", ".bz2", ".7z", ".tar.gz", ".tgz", ".tar.Z", ".tar.bz2",
        ".tbz2", ".tar.lz", ".tlz", ".tar.xz", ".txz", ".tar.zst"] := by
  constructor <;> intro h <;>
    simp only [archiveSuffixes, List.mem_cons, List.mem_singleton, List.not_mem_nil,
      or_false] at h <;>
    rcases h with h | h | h | h | h | h | h | h | h | h | h | h | h | h <;>
    subst h <;> decide

theorem non_ok {σ : Type} (env : Env σ) (fl : Flags) (w : σ) (resp : Response)
    (h : resp.StatusCode ≠ 200) : classifyResponse env fl w resp = (w, []) := by
  unfold classifyResponse
  simp [StatusOK, h]

/-! ## Facts about the save worker -/

theorem digitChar_isDigit (d : Nat) (h : d < 10) : (Nat.digitChar d).isDigit = true := by
  interval_cases d <;> decide

theorem appendInt_two (x : Nat) (h : x < 100) :
    (appendInt x 2).length = 2 ∧ ∀ c ∈ appendInt x 2, c.isDigit = true := by
  have h1 : x / 10 < 10 := by omega
  have h2 : x % 10 < 10 := by omega
  simp [appendInt, h, digitChar_isDigit _ h1, digitChar_isDigit _ h2]

theorem appendInt_four (x : Nat) (h : x < 10000) :
    (appendInt x 4).length = 4 ∧ ∀ c ∈ appendInt x 4, c.isDigit = true := by
  have h1 : x / 1000 < 10 := by omega
  have h2 : x / 100 % 10 < 10 := by omega
  have h3 : x / 10 % 10 < 10 := by omega
  have h4 : x % 10 < 10 := by omega
  simp [appendInt, h, digitChar_isDigit _ h1, digitChar_isDigit _ h2, digitChar_isDigit _ h3,
    digitChar_isDigit _ h4]

theorem format_fourteen_digits (t : Time) (hy : t.Year < 10000) (hmo : t.Month < 100)
    (hd : t.Day < 100) (hh : t.Hour < 100) (hmi : t.Minute < 100) (hs : t.Second < 100) :
    t.Format.length = 14 ∧ ∀ c ∈ t.Format.data, c.isDigit = true := by
  obtain ⟨y1, y2⟩ := appendInt_four t.Year hy
  obtain ⟨a1, a2⟩ := appendInt_two t.Month hmo
  obtain ⟨b1, b2⟩ := appendInt_two t.Day hd
  obtain ⟨c1, c2⟩ := appendInt_two t.Hour hh
  obtain ⟨d1, d2⟩ := appendInt_two t.Minute hmi
  obtain ⟨e1, e2⟩ := appendInt_two t.Second hs
  constructor
  · simp [Time.Format, String.length, y1, a1, b1, c1, d1, e1]
  · intro c hc
    simp only [Time.Format, List.mem_append] at hc
    rcases hc with ((((hc | hc) | hc) | hc) | hc) | hc
    · exact y2 c hc
    · exact a2 c hc
    · exact b2 c hc
    · exact c2 c hc
    · exact d2 c hc
    · exact e2 c hc

/-! ## Facts about the pools -/

theorem spawnLoop_eq (i bound : Int) (started : Nat) :
    spawnLoop i bound started = started + (bound - i).toNat := by
  induction i, bound, started using spawnLoop.induct with
  | case1 i bound started hlt ih =>
    rw [spawnLoop, if_pos hlt, ih]
    omega
  | case2 i bound started hge =>
    rw [spawnLoop, if_neg hge]
    omega

theorem saveWorkers_eq : saveWorkers = 10 := by
  simp [saveWorkers, spawnLoop_eq]

theorem fetchWorkers_eq (c : Int) : fetchWorkers c = c.toNat := by
  simp [fetchWorkers, spawnLoop_eq]

theorem classifyWorkers_eq (c : Int) : classifyWorkers c = (c.tdiv 2).toNat := by
  simp [classifyWorkers, spawnLoop_eq]

/-! ## Claims about the classify worker -/

/-- C1: a response whose status is not 200 is skipped entirely: the iteration
produces no effect at all (no match line, nothing sent on `tosave`, no call of
`ZipFromDir`, no call of `AttemptTarget`) and leaves the external state
untouched, whatever the URL, length, content type and flags are; the worker
goes on with the remaining responses as if it had never received this one. -/
theorem non_ok_status_is_skipped {σ : Type} (env : Env σ) (fl : Flags) (w : σ)
    (resp : Response) (h : resp.StatusCode ≠ 200) :
    (classifyResponse env fl w resp).2 = [] ∧ (classifyResponse env fl w resp).1 = w ∧
      directReports (classifyResponse env fl w resp).2 = [] ∧
      listingReports (classifyResponse env fl w resp).2 = [] ∧
      saved (classifyResponse env fl w resp).2 = [] ∧
      parsed (classifyResponse env fl w resp).2 = [] ∧
      fetched (classifyResponse env fl w resp).2 = [] ∧
      (∀ rest : List Response,
        responseWorker env fl w (resp :: rest) = responseWorker env fl w rest) := by
  have hw : ∀ rest : List Response,
      responseWorker env fl w (resp :: rest) = responseWorker env fl w rest := by
    intro rest
    simp [responseWorker, non_ok env fl w resp h]
  rw [non_ok env fl w resp h]
  exact ⟨rfl, rfl, rfl, rfl, rfl, rfl, rfl, hw⟩

/-- Witness for C1: a 404 answer for an archive-looking URL, downloads enabled. -/
theorem non_ok_status_is_skipped_witness :
    (⟨404, "http://x/kit.tar.gz", 1024, "application/gzip", []⟩ : Response).StatusCode ≠ 200 ∧
      (classifyResponse sampleEnv ⟨false, true⟩ 0
        ⟨404, "http://x/kit.tar.gz", 1024, "application/gzip", []⟩).2 = [] :=
  ⟨by decide, (non_ok_status_is_skipped sampleEnv ⟨false, true⟩ 0
    ⟨404, "http://x/kit.tar.gz", 1024, "application/gzip", []⟩ (by decide)).1⟩

/-- C2 (counterexample): the suffix test is not a test of the URL path.  A
status-200 archive requested as `http://x/kit.tar.gz?x=1` has the path
`/kit.tar.gz` and satisfies the check as the specification states it, yet it is
not reported as a direct archive; `http://x/?f=.gz` (path `/`) and
`http://files.example.tar` (empty path) fail that check, yet both are reported
and, with downloads enabled, sent on `tosave`.  So the equivalence with the
path-based check fails in both directions. -/
theorem direct_archive_url_path_counterexample :
    sampleQueryArchive.StatusCode = 200 ∧
    specUrlPath sampleQueryArchive.URL = "/kit.tar.gz" ∧
    specDirectArchive sampleQueryArchive = true ∧
    directReports (classifyResponse sampleEnv ⟨false, true⟩ 0 sampleQueryArchive).2 = [] ∧
    sampleQuerySuffix.StatusCode = 200 ∧
    specUrlPath sampleQuerySuffix.URL = "/" ∧
    specDirectArchive sampleQuerySuffix = false ∧
    directReports (classifyResponse sampleEnv ⟨false, true⟩ 0 sampleQuerySuffix).2 =
      ["http://x/?f=.gz\n"] ∧
    saved (classifyResponse sampleEnv ⟨false, true⟩ 0 sampleQuerySuffix).2 =
      [sampleQuerySuffix] ∧
    sampleHostSuffix.StatusCode = 200 ∧
    specUrlPath sampleHostSuffix.URL = "" ∧
    specDirectArchive sampleHostSuffix = false ∧
    directReports (classifyResponse sampleEnv ⟨false, true⟩ 0 sampleHostSuffix).2 =
      ["http://files.example.tar\n"] ∧
    saved (classifyResponse sampleEnv ⟨false, true⟩ 0 sampleHostSuffix).2 =
      [sampleHostSuffix] ∧
    ¬ (∀ (fl : Flags) (resp : Response), resp.StatusCode = 200 →
        (directReports (classifyResponse sampleEnv fl 0 resp).2 =
            [directLine fl.verbose resp.URL] ↔
          specDirectArchive resp = true)) := by
  refine ⟨by decide, by decide, by decide, by decide, by decide, by decide, by decide,
    by decide, by decide, by decide, by decide, by decide, by decide, by decide, ?_⟩
  intro hall
  have h := (hall ⟨false, true⟩ sampleQueryArchive (by decide)).2 (by decide)
  revert h
  decide

/-- C2 (amended): for a status-200 response the request URL is reported as a
direct archive exactly when the request URL string as a whole (`resp.URL`, any
query string or fragment included) ends in one of the 14 suffixes, the content
length lies strictly between 0 and 104857600, and the content type contains one
of "zip", "tar", "gz", "bz", "7z"; at most one such line is printed.  In
particular lengths 104857600, 0 and -1, the content type "application/ZIP" and
a URL string ending in ".zip" are never reported as direct archives. -/
theorem direct_archive_iff {σ : Type} (env : Env σ) (fl : Flags) (w : σ) (resp : Response)
    (h200 : resp.StatusCode = 200) :
    (directReports (classifyResponse env fl w resp).2 = [directLine fl.verbose resp.URL] ↔
      ((∃ suffix ∈ [".tar", ".gz", ".bz2", ".7z", ".tar.gz", ".tgz", ".tar.Z", ".tar.bz2",
            ".tbz2", ".tar.lz", ".tlz", ".tar.xz", ".txz", ".tar.zst"],
          ∃ p : String, resp.URL = p ++ suffix) ∧
        0 < resp.ContentLength ∧ resp.ContentLength < 104857600 ∧
        (∃ sub ∈ ["zip", "tar", "gz", "bz", "7z"],
          ∃ a b : String, resp.ContentType = a ++ sub ++ b))) ∧
    (directReports (classifyResponse env fl w resp).2 ≠ [directLine fl.verbose resp.URL] →
      directReports (classifyResponse env fl w resp).2 = []) ∧
    (resp.ContentLength = 104857600 → directReports (classifyResponse env fl w resp).2 = []) ∧
    (resp.ContentLength = 0 → directReports (classifyResponse env fl w resp).2 = []) ∧
    (resp.ContentLength = -1 → directReports (classifyResponse env fl w resp).2 = []) ∧
    (resp.ContentType = "application/ZIP" →
      directReports (classifyResponse env fl w resp).2 = []) ∧
    ((∃ p : String, resp.URL = p ++ ".zip") →
      directReports (classifyResponse env fl w resp).2 = []) := by
  rw [directReports_classifyResponse env fl w resp h200]
  have hiff := validArchive_iff resp
  refine ⟨?_, ?_, ?_, ?_, ?_, ?_, ?_⟩
  · by_cases hv : validArchive resp = true
    · simp only [hv, if_true, true_iff]
      obtain ⟨⟨suffix, hmem, hp⟩, h1, h2, h3⟩ := hiff.1 hv
      exact ⟨⟨suffix, (mem_archiveSuffixes suffix).1 hmem, hp⟩, h1, h2, h3⟩
    · simp only [hv, Bool.false_eq_true, if_false]
      constructor
      · intro h
        cases h
      · rintro ⟨⟨suffix, hmem, hp⟩, h1, h2, h3⟩
        exact absurd (hiff.2 ⟨⟨suffix, (mem_archiveSuffixes suffix).2 hmem, hp⟩, h1, h2, h3⟩) hv
  · by_cases hv : validArchive resp = true <;> simp [hv]
  · intro hl
    have hv : ¬ validArchive resp = true := fun hv => by
      have := (hiff.1 hv).2.2.1
      omega
    simp [hv]
  · intro hl
    have hv : ¬ validArchive resp = true := fun hv => by
      have := (hiff.1 hv).2.1
      omega
    simp [hv]
  · intro hl
    have hv : ¬ validArchive resp = true := fun hv => by
      have := (hiff.1 hv).2.1
      omega
    simp [hv]
  · intro hct
    have hv : ¬ validArchive resp = true := by
      have : containsSubstringsAny resp.ContentType archiveContentTypes = false := by
        rw [hct]
        decide
      simp [validArchive, this]
    simp [hv]
  · rintro ⟨p, hp⟩
    have hv : ¬ validArchive resp = true := by
      simp [validArchive, hp, zip_url_not_archive]
    simp [hv]

/-- Witness for C2 (amended): a gzip archive of 1024 bytes answered with status 200. -/
theorem direct_archive_iff_witness :
    sampleArchive.StatusCode = 200 ∧
      directReports (classifyResponse sampleEnv ⟨false, true⟩ 0 sampleArchive).2 =
        ["http://x/kit.tar.gz\n"] :=
  ⟨by decide, ((direct_archive_iff sampleEnv ⟨false, true⟩ 0 sampleArchive (by decide)).1).2
    ⟨⟨".tar.gz", by decide, "http://x/kit", by decide⟩, by decide, by decide,
      ⟨"gz", by decide, "application/", "ip", by decide⟩⟩⟩

/-- C3 (the code at the failing input): with downloads disabled, a status-200
response that passes the direct-archive check is reported as a direct archive
and is then still handed to `ZipFromDir`, and the hrefs it returns are reported
against the archive URL; with downloads enabled the same response is not
parsed.  The same holds for every status-200 response that passes the check:
it is handed to `ZipFromDir` exactly when downloads are disabled. -/
theorem direct_archive_still_parsed_when_not_downloading :
    sampleArchive.StatusCode = 200 ∧ validArchive sampleArchive = true ∧
      directReports (classifyResponse sampleEnv ⟨false, false⟩ 0 sampleArchive).2 =
        ["http://x/kit.tar.gz\n"] ∧
      parsed (classifyResponse sampleEnv ⟨false, false⟩ 0 sampleArchive).2 = [sampleArchive] ∧
      listingReports (classifyResponse sampleEnv ⟨false, false⟩ 0 sampleArchive).2 =
        ["http://x/kit.tar.gz/a.zip\n"] ∧
      parsed (classifyResponse sampleEnv ⟨false, true⟩ 0 sampleArchive).2 = [] ∧
      listingReports (classifyResponse sampleEnv ⟨false, true⟩ 0 sampleArchive).2 = [] ∧
      (∀ {σ : Type} (env : Env σ) (verbose : Bool) (w : σ) (resp : Response),
        resp.StatusCode = 200 → validArchive resp = true →
          parsed (classifyResponse env ⟨verbose, false⟩ w resp).2 = [resp] ∧
          parsed (classifyResponse env ⟨verbose, true⟩ w resp).2 = []) := by
  refine ⟨by decide, by decide, by decide, by decide, by decide, by decide, by decide, ?_⟩
  intro σ env verbose w resp h200 hv
  constructor
  · rw [classifyResponse_ok env _ w resp h200]
    simp [hv, parsed, parsed_hrefLoop]
  · rw [classifyResponse_ok env _ w resp h200]
    simp [hv, parsed]

/-- C4: for a non-empty href the resolved URL is `b ++ h` when the base ends in
"/" and `b ++ "/" ++ h` otherwise, so a base without trailing slash and the same
base with one resolve to the same URL; this resolved URL is the one the href
loop prints and, when downloading, fetches. -/
theorem href_resolution (b h : String) (hne : h ≠ "") :
    ((∃ p : String, b = p ++ "/") → hurl b h = b ++ h) ∧
    ((¬ ∃ p : String, b = p ++ "/") →
      hurl b h = b ++ "/" ++ h ∧ hurl (b ++ "/") h = hurl b h) ∧
    (∀ {σ : Type} (env : Env σ) (fl : Flags) (w : σ),
      listingReports (hrefLoop env fl b w [h]).2 = [listingLine fl.verbose (hurl b h)] ∧
      (fl.downloadKits = true → fetched (hrefLoop env fl b w [h]).2 = [hurl b h])) ∧
    hurl "http://x/dir" "a.zip" = "http://x/dir/a.zip" ∧
    hurl "http://x/dir/" "a.zip" = "http://x/dir/a.zip" := by
  refine ⟨?_, ?_, ?_, by decide, by decide⟩
  · intro hs
    simp [hurl, (hasSuffix_iff b "/").2 hs]
  · intro hs
    have h1 : HasSuffix b "/" = false := by
      rw [Bool.eq_false_iff]
      exact fun hc => hs ((hasSuffix_iff b "/").1 hc)
    have h2 : HasSuffix (b ++ "/") "/" = true := (hasSuffix_iff _ _).2 ⟨b, rfl⟩
    simp [hurl, h1, h2]
  · intro σ env fl w
    constructor
    · rw [listingReports_hrefLoop]
      simp [hne]
    · intro hd
      rw [fetched_hrefLoop]
      simp [hne, hd]

/-- Witness for C4: the href "a.zip". -/
theorem href_resolution_witness :
    ("a.zip" : String) ≠ "" ∧ hurl ("http://x/dir" ++ "/") "a.zip" = hurl "http://x/dir" "a.zip" :=
  ⟨by decide, ((href_resolution "http://x/dir" "a.zip" (by decide)).2.1
    (by
      rintro ⟨p, hp⟩
      have := (hasSuffix_iff "http://x/dir" "/").2 ⟨p, hp⟩
      revert this
      decide)).2⟩

/-- C5: with the download flag off the classify step sends nothing on `tosave`,
neither from the direct-archive branch nor from the href loop, for every
response and every list of hrefs; hence any response sent on `tosave` was sent
with `downloadKits = true`. -/
theorem no_save_without_download_flag {σ : Type} (env : Env σ) (fl : Flags) (w : σ)
    (resp : Response) (hrefs : List String) :
    (fl.downloadKits = false →
      saved (classifyResponse env fl w resp).2 = [] ∧
      saved (hrefLoop env fl resp.URL w hrefs).2 = []) ∧
    (∀ r : Response,
      (Event.tosave r ∈ (classifyResponse env fl w resp).2 ∨
        Event.tosave r ∈ (hrefLoop env fl resp.URL w hrefs).2) →
      fl.downloadKits = true) := by
  have key : fl.downloadKits = false →
      saved (classifyResponse env fl w resp).2 = [] ∧
      saved (hrefLoop env fl resp.URL w hrefs).2 = [] := by
    intro hd
    refine ⟨?_, saved_hrefLoop_off env fl resp.URL w hrefs hd⟩
    by_cases h200 : resp.StatusCode = 200
    · rw [classifyResponse_ok env fl w resp h200]
      by_cases hv : validArchive resp = true <;>
        simp [hv, hd, saved, saved_hrefLoop_off]
    · rw [(non_ok env fl w resp h200)]
      rfl
  refine ⟨key, ?_⟩
  intro r hr
  by_contra hd
  have hd' : fl.downloadKits = false := by simpa using hd
  obtain ⟨k1, k2⟩ := key hd'
  rcases hr with hr | hr
  · have := (mem_saved r _).2 hr
    rw [k1] at this
    simp at this
  · have := (mem_saved r _).2 hr
    rw [k2] at this
    simp at this

/-- Witness for C5: the sample open directory, downloads disabled. -/
theorem no_save_without_download_flag_witness :
    (⟨false, false⟩ : Flags).downloadKits = false ∧
      saved (classifyResponse sampleEnv ⟨false, false⟩ 0 sampleListing).2 = [] :=
  ⟨rfl, ((no_save_without_download_flag sampleEnv ⟨false, false⟩ 0 sampleListing []).1 rfl).1⟩

/-- C6: with downloading enabled, when the listing parser returns `hrefs` for a
response, the classify step calls `AttemptTarget` exactly once per non-empty
href, in list order, on the resolved URL, and never for an empty href; every
non-empty href is reported whatever the earlier fetches returned; and the
responses sent on `tosave` are exactly the successful fetch results, each once,
in order. -/
theorem one_fetch_per_href {σ : Type} (env : Env σ) (fl : Flags) (w w1 : σ) (resp : Response)
    (hrefs : List String) (hd : fl.downloadKits = true) (h200 : resp.StatusCode = 200)
    (hv : validArchive resp = false) (hz : env.ZipFromDir w resp = (w1, Except.ok hrefs)) :
    fetched (classifyResponse env fl w resp).2 =
      (hrefs.filter (fun h => decide (h ≠ ""))).map (hurl resp.URL) ∧
    listingReports (classifyResponse env fl w resp).2 =
      (hrefs.filter (fun h => decide (h ≠ ""))).map
        (fun h => listingLine fl.verbose (hurl resp.URL h)) ∧
    saved (classifyResponse env fl w resp).2 = fetchedOk (classifyResponse env fl w resp).2 ∧
    (fetchedOk (classifyResponse env fl w resp).2).length ≤
      (fetched (classifyResponse env fl w resp).2).length := by
  refine ⟨?_, ?_, ?_, fetchedOk_length_le _⟩ <;>
    rw [classifyResponse_ok env fl w resp h200] <;>
    simp [hv, hz, fetched, listingReports, saved, fetchedOk, fetched_hrefLoop,
      listingReports_hrefLoop, saved_hrefLoop, hd]

/-- Witness for C6: the sample open directory, whose first href fails to fetch. -/
theorem one_fetch_per_href_witness :
    fetched (classifyResponse sampleEnv ⟨false, true⟩ 0 sampleListing).2 =
        ["http://host/open/kit.zip", "http://host/open/b.tar.gz"] ∧
      saved (classifyResponse sampleEnv ⟨false, true⟩ 0 sampleListing).2 =
        [⟨200, "http://host/open/b.tar.gz", 1024, "application/zip", []⟩] := by
  have h := one_fetch_per_href sampleEnv ⟨false, true⟩ 0 1 sampleListing
    ["kit.zip", "", "b.tar.gz"] rfl (by decide) (by decide) (by decide)
  refine ⟨h.1.trans (by decide), h.2.2.1.trans (by decide)⟩

/-- C7 (counterexample): with downloads disabled the listing parser returns two
non-empty hrefs for the sample open directory, both resolved URLs are printed,
and no fetch is issued for either. -/
theorem refetch_when_disabled_counterexample :
    sampleEnv.ZipFromDir 0 sampleListing = (1, Except.ok ["kit.zip", "", "b.tar.gz"]) ∧
      listingReports (classifyResponse sampleEnv ⟨false, false⟩ 0 sampleListing).2 =
        ["http://host/open/kit.zip\n", "http://host/open/b.tar.gz\n"] ∧
      fetched (classifyResponse sampleEnv ⟨false, false⟩ 0 sampleListing).2 = [] ∧
      ¬ (∀ (fl : Flags) (h : String), h ∈ ["kit.zip", "", "b.tar.gz"] → h ≠ "" →
          hurl sampleListing.URL h ∈ fetched (classifyResponse sampleEnv fl 0 sampleListing).2) := by
  refine ⟨by decide, by decide, by decide, ?_⟩
  intro hall
  have := hall ⟨false, false⟩ "kit.zip" (by decide) (by decide)
  revert this
  decide

/-- C7 (amended): the href loop fetches the resolved URL of every non-empty href
when `downloadKits` is true and issues no fetch at all when it is false; in both
cases every non-empty href is printed, and with downloads disabled the loop
leaves the external state untouched. -/
theorem refetch_only_when_downloading {σ : Type} (env : Env σ) (fl : Flags) (requrl : String)
    (w : σ) (hrefs : List String) :
    fetched (hrefLoop env fl requrl w hrefs).2 =
      (if fl.downloadKits = true then
        (hrefs.filter (fun h => decide (h ≠ ""))).map (hurl requrl)
      else []) ∧
    listingReports (hrefLoop env fl requrl w hrefs).2 =
      (hrefs.filter (fun h => decide (h ≠ ""))).map
        (fun h => listingLine fl.verbose (hurl requrl h)) ∧
    (fl.downloadKits = false → (hrefLoop env fl requrl w hrefs).1 = w) := by
  refine ⟨fetched_hrefLoop env fl requrl w hrefs, listingReports_hrefLoop env fl requrl w hrefs, ?_⟩
  intro hd
  induction hrefs generalizing w with
  | nil => rfl
  | cons h hs ih => simp [hrefLoop, hrefStep_world_off env fl requrl w h hd, ih]

/-- Witness for C7 (amended): three hrefs, downloads disabled. -/
theorem refetch_only_when_downloading_witness :
    (⟨false, false⟩ : Flags).downloadKits = false ∧
      (hrefLoop sampleEnv ⟨false, false⟩ "http://host/open/" 7 ["kit.zip", "", "b.tar.gz"]).1 = 7 :=
  ⟨rfl, (refetch_only_when_downloading sampleEnv ⟨false, false⟩ "http://host/open/" 7
    ["kit.zip", "", "b.tar.gz"]).2.2 rfl⟩

/-! ## Claims about the save worker and the pools -/

/-- C8: for a response taken from `tosave`, when `SaveResponse` returns no
error and a non-empty filename the save worker appends exactly one index line,
`timestamp,url,filename` followed by a newline, and reports no failure; when it
returns an error, or an empty filename, nothing is appended; an empty filename
without error produces no output at all.  For a clock reading with a year of at
most four digits the timestamp consists of exactly 14 decimal digits. -/
theorem index_line_per_successful_save {σ : Type} (senv : SaveEnv σ) (fl : Flags) (w : σ)
    (resp : Response) :
    (∀ (w1 : σ) (filename : String),
      senv.SaveResponse w resp = (w1, filename, none) → filename ≠ "" →
        indexWrites (saveStep senv fl w resp).2 =
          [(senv.Now w1).Format ++ "," ++ resp.URL ++ "," ++ filename ++ "\n"] ∧
        saveErrors (saveStep senv fl w resp).2 = []) ∧
    (∀ (w1 : σ) (filename err : String),
      senv.SaveResponse w resp = (w1, filename, some err) →
        indexWrites (saveStep senv fl w resp).2 = []) ∧
    (∀ (w1 : σ), senv.SaveResponse w resp = (w1, "", none) →
        (saveStep senv fl w resp).2 = []) ∧
    (∀ t : Time, t.Year ≤ 9999 → t.Month ≤ 12 → t.Day ≤ 31 → t.Hour ≤ 23 → t.Minute ≤ 59 →
      t.Second ≤ 59 → t.Format.length = 14 ∧ ∀ c ∈ t.Format.data, c.isDigit = true) := by
  refine ⟨?_, ?_, ?_, ?_⟩
  · intro w1 filename hs hne
    by_cases hv : fl.verbose = true <;>
      simp [saveStep, hs, hne, hv, indexWrites, saveErrors, indexLine]
  · intro w1 filename err hs
    by_cases hv : fl.verbose = true <;> simp [saveStep, hs, hv, indexWrites]
  · intro w1 hs
    simp [saveStep, hs]
  · intro t hy hmo hd hh hmi hs
    exact format_fourteen_digits t (by omega) (by omega) (by omega) (by omega) (by omega)
      (by omega)

/-- Witness for C8: a zip response saved as `kit.zip` at 2026-11-01 09:05:03. -/
theorem index_line_per_successful_save_witness :
    indexWrites (saveStep sampleSaveEnv ⟨true, true⟩ 0
        ⟨200, "http://host/open/kit.zip", 1024, "application/zip", []⟩).2 =
      ["20261101090503,http://host/open/kit.zip,kit.zip\n"] :=
  ((index_line_per_successful_save sampleSaveEnv ⟨true, true⟩ 0
      ⟨200, "http://host/open/kit.zip", 1024, "application/zip", []⟩).1 1 "kit.zip"
    (by decide) (by decide)).1.trans (by decide)

/-- C10: for a concurrency level `c ≥ 0` the program starts `c` fetch workers,
`c / 2` classify workers (truncating division) and 10 save workers; the classify
pool is exactly half the fetch pool only for even `c`, and for `c = 1` and
`c = 0` no classify worker is started, so nothing receives from `responses`. -/
theorem pool_sizes (c : Int) (hc : 0 ≤ c) :
    (fetchWorkers c : Int) = c ∧
    (classifyWorkers c : Int) = c.tdiv 2 ∧
    classifyWorkers c = c.toNat / 2 ∧
    saveWorkers = 10 ∧
    (2 * classifyWorkers c = fetchWorkers c ↔ c % 2 = 0) ∧
    classifyWorkers 1 = 0 ∧ classifyWorkers 0 = 0 ∧ fetchWorkers 1 = 1 ∧
    (∀ (urls : List String) (w : Nat),
      (Pipeline.init 1 urls w).classifiers = [] ∧ (Pipeline.init 0 urls w).classifiers = []) := by
  have hdiv : c.tdiv 2 = c / 2 := Int.tdiv_eq_ediv hc (by decide)
  refine ⟨?_, ?_, ?_, saveWorkers_eq, ?_, ?_, ?_, ?_, ?_⟩
  · rw [fetchWorkers_eq]
    omega
  · rw [classifyWorkers_eq, hdiv]
    omega
  · rw [classifyWorkers_eq, hdiv]
    omega
  · rw [classifyWorkers_eq, fetchWorkers_eq, hdiv]
    omega
  · rw [classifyWorkers_eq]
    decide
  · rw [classifyWorkers_eq]
    decide
  · rw [fetchWorkers_eq]
    decide
  · intro urls w
    have h1 : classifyWorkers 1 = 0 := by
      rw [classifyWorkers_eq]
      decide
    have h0 : classifyWorkers 0 = 0 := by
      rw [classifyWorkers_eq]
      decide
    simp [Pipeline.init, h1, h0]

/-- Witness for C10: concurrency 7 starts 7 fetch workers and 3 classify workers. -/
theorem pool_sizes_witness :
    (0 : Int) ≤ 7 ∧ (fetchWorkers 7 : Int) = 7 ∧ classifyWorkers 7 = 3 :=
  ⟨by decide, (pool_sizes 7 (by decide)).1, (pool_sizes 7 (by decide)).2.2.1.trans (by decide)⟩

/-! ## The shutdown sequence with one fetch worker -/

theorem blockedOnResponses_init :
    blockedOnResponses (Pipeline.init 1 [stuckTarget] 0) := by
  have h1 : classifyWorkers 1 = 0 := by
    rw [classifyWorkers_eq]
    decide
  have h2 : fetchWorkers 1 = 1 := by
    rw [fetchWorkers_eq]
    decide
  simp [blockedOnResponses, Pipeline.init, h1, h2]

theorem blockedOnResponses_step (s s1 : Pipeline Nat) (a : Action)
    (hs : blockedOnResponses s)
    (hstep : s.step sampleEnv sampleSaveEnv ⟨false, true⟩ a = some s1) :
    blockedOnResponses s1 := by
  obtain ⟨hc, hr, ht, hcase⟩ := hs
  cases a with
  | sendTarget i =>
    rcases hcase with ⟨hm, hf, htc⟩ | ⟨hm | hm, hf⟩
    · rcases i with _ | i
      · simp [Pipeline.step, hm, hf, sampleEnv, sampleAttemptTarget, stuckTarget] at hstep
        subst hstep
        simp [blockedOnResponses, hc, hr, ht, hf, stuckTarget]
      · simp [Pipeline.step, hm, hf] at hstep
    · simp [Pipeline.step, hm] at hstep
    · simp [Pipeline.step, hm] at hstep
  | closeTargets =>
    rcases hcase with ⟨hm, hf, htc⟩ | ⟨hm | hm, hf⟩
    · simp [Pipeline.step, hm] at hstep
    · simp [Pipeline.step, hm] at hstep
      subst hstep
      simp [blockedOnResponses, hc, hr, ht, hf]
    · simp [Pipeline.step, hm] at hstep
  | fetchExit i =>
    rcases hcase with ⟨hm, hf, htc⟩ | ⟨hm, hf⟩
    · simp [Pipeline.step, htc] at hstep
    · rcases i with _ | i <;> simp [Pipeline.step, hf] at hstep
  | sendResponse i j =>
    simp only [Pipeline.step, hc, List.getElem?_nil] at hstep
    split at hstep <;> simp_all
  | closeResponses =>
    rcases hcase with ⟨hm, hf, htc⟩ | ⟨hm, hf⟩
    · simp [Pipeline.step, hm] at hstep
    · simp [Pipeline.step, hf] at hstep
  | classifyExit j => simp [Pipeline.step, hr] at hstep
  | sendSave j k => simp [Pipeline.step, hc] at hstep
  | closeTosave =>
    rcases hcase with ⟨hm, hf, htc⟩ | ⟨hm | hm, hf⟩ <;> simp [Pipeline.step, hm] at hstep
  | saveExit k => simp [Pipeline.step, ht] at hstep
  | mainReturn =>
    rcases hcase with ⟨hm, hf, htc⟩ | ⟨hm | hm, hf⟩ <;> simp [Pipeline.step, hm] at hstep

theorem blockedOnResponses_run (acts : List Action) (s s1 : Pipeline Nat)
    (hs : blockedOnResponses s)
    (hrun : s.run sampleEnv sampleSaveEnv ⟨false, true⟩ acts = some s1) :
    blockedOnResponses s1 := by
  induction acts generalizing s with
  | nil =>
    simp only [Pipeline.run, Option.some.injEq] at hrun
    exact hrun ▸ hs
  | cons a rest ih =>
    simp only [Pipeline.run] at hrun
    split at hrun
    · rename_i s2 hstep
      exact ih s2 (blockedOnResponses_step s s2 a hs hstep) hrun
    · cases hrun

/-- C9 (the code at the failing input): with concurrency 1 and one target whose
fetch succeeds, the schedule "hand the target to the fetch worker, close
targets" leads to a state where `main` waits in `wg.Wait()`, the fetch worker
is blocked at `responses <- res`, no classify worker exists, and no step at all
is enabled; on every schedule `main` never returns and `responses` is never
closed.  With concurrency 2 the same target is drained by the staged shutdown:
all three channels get closed, every worker returns and `main` returns. -/
theorem shutdown_blocks_with_one_fetch_worker :
    (Pipeline.init 1 [stuckTarget] 0).run sampleEnv sampleSaveEnv ⟨false, true⟩
        [Action.sendTarget 0, Action.closeTargets] = some stuckState ∧
    stuckState.main = MainPc.waitFetch ∧
    stuckState.fetchers = [FetchPc.send ⟨200, stuckTarget, 1024, "application/zip", []⟩] ∧
    stuckState.classifiers = [] ∧
    (∀ a : Action, stuckState.step sampleEnv sampleSaveEnv ⟨false, true⟩ a = none) ∧
    (∀ (acts : List Action) (s : Pipeline Nat),
      (Pipeline.init 1 [stuckTarget] 0).run sampleEnv sampleSaveEnv ⟨false, true⟩ acts = some s →
        s.main ≠ MainPc.returned ∧ s.responsesClosed = false ∧
          s.fetchers ≠ [FetchPc.done]) ∧
    (Pipeline.init 2 [stuckTarget] 0).run sampleEnv sampleSaveEnv ⟨false, true⟩
        drainSchedule = some drainedState := by
  have h1 : classifyWorkers 1 = 0 := by
    rw [classifyWorkers_eq]
    decide
  have h2 : fetchWorkers 1 = 1 := by
    rw [fetchWorkers_eq]
    decide
  refine ⟨?_, rfl, rfl, rfl, ?_, ?_, ?_⟩
  · simp [Pipeline.run, Pipeline.step, Pipeline.init, h1, h2, saveWorkers_eq, sampleEnv,
      sampleAttemptTarget, stuckTarget, stuckState]
  · intro a
    cases hstep : stuckState.step sampleEnv sampleSaveEnv ⟨false, true⟩ a with
    | none => rfl
    | some s1 =>
      exfalso
      cases a with
      | fetchExit i => rcases i with _ | i <;> simp [Pipeline.step, stuckState] at hstep
      | _ => simp [Pipeline.step, stuckState] at hstep
  · intro acts s hrun
    obtain ⟨hc, hr, ht, hcase⟩ :=
      blockedOnResponses_run acts _ s blockedOnResponses_init hrun
    rcases hcase with ⟨hm, hf, htc⟩ | ⟨hm | hm, hf⟩ <;> simp [hm, hf, hr]
  · have h3 : classifyWorkers 2 = 1 := by
      rw [classifyWorkers_eq]
      decide
    have h4 : fetchWorkers 2 = 2 := by
      rw [fetchWorkers_eq]
      decide
    have hinit : Pipeline.init 2 [stuckTarget] (0 : Nat) =
        ⟨0, MainPc.feed [stuckTarget], false, false, false, [FetchPc.recv, FetchPc.recv],
          [ClassifyPc.recv], List.replicate 10 SavePc.recv⟩ := by
      simp [Pipeline.init, h3, h4, saveWorkers_eq]
    rw [hinit]
    decide

end Kitphishr
